import Mathlib

/-!
Shallow embedding of the `peresil` parsing-primitives library.

Sources embedded: `src/slices.rs` (`SlicePoint` and its primitive steps),
`src/strings.rs` (`StringPoint` and its helpers), `src/bytes.rs` /
`src/bytes/num.rs` (fixed-width numeric decoders over `BytePoint`), and
`src/snafu.rs` (`ProgressExt::context`).

Rust `&[T]` is modelled as `List T`; Rust `&str` as a `List Nat` of UTF-8
code units (each a byte value), so that byte offsets and UTF-8
character-boundary checks of string slicing can be expressed faithfully.
Operations that can panic in Rust (string/slice indexing out of range or
off a character boundary) return `Option`, with `none` modelling the panic.

The crate root (`Progress`, `Status`, `Point`, `Recoverable`,
`ParseMaster`) is not among the provided sources; those pieces are
modelled from the spec where a claim needs them, and marked as such.
-/

/-- Modelled from the spec: `Status<T, E>` of the crate root (not among the
provided sources) — exactly one of `Success(T)` or `Failure(E)`. -/
inductive Status (T E : Type) : Type
  | Success (v : T) : Status T E
  | Failure (e : E) : Status T E
  deriving DecidableEq, Repr

/-- Modelled from the spec: `Progress<P, T, E>` of the crate root (not among
the provided sources) — a pair of a point and a status. -/
structure Progress (P T E : Type) : Type where
  point : P
  status : Status T E
  deriving DecidableEq, Repr

/-- Modelled from the spec: `Progress::success(point, val)` constructor used
by `strings.rs`. -/
def Progress.success {P T E : Type} (point : P) (v : T) : Progress P T E :=
  ⟨point, Status.Success v⟩

/-- Modelled from the spec: `Progress::failure(point, err)` constructor used
by `strings.rs`. -/
def Progress.failure {P T E : Type} (point : P) (e : E) : Progress P T E :=
  ⟨point, Status.Failure e⟩

/-- Modelled from the spec: `Progress::map` — "transforms the success payload
and passes failures through unchanged". -/
def Progress.map {P T U E : Type} (pr : Progress P T E) (f : T → U) : Progress P U E :=
  match pr with
  | ⟨point, Status.Success v⟩ => ⟨point, Status.Success (f v)⟩
  | ⟨point, Status.Failure e⟩ => ⟨point, Status.Failure e⟩

/-- Modelled from the spec: `Progress::map_err` — "transforms the error
payload and passes successes through unchanged". -/
def Progress.map_err {P T E E2 : Type} (pr : Progress P T E) (f : E → E2) : Progress P T E2 :=
  match pr with
  | ⟨point, Status.Success v⟩ => ⟨point, Status.Success v⟩
  | ⟨point, Status.Failure e⟩ => ⟨point, Status.Failure (f e)⟩

/-- Rust `SlicePoint<'a, T>` from `src/slices.rs`: an offset into the original
input plus the remaining unconsumed slice. -/
structure SlicePoint (T : Type) : Type where
  offset : Nat
  s : List T
  deriving DecidableEq, Repr

/-- Rust `SlicePoint::new` from `src/slices.rs`. -/
def SlicePoint.new {T : Type} (slice : List T) : SlicePoint T :=
  ⟨0, slice⟩

/-- Rust `SlicePoint::fail` from `src/slices.rs`: a failure `Progress` at the
unmodified current point. -/
def SlicePoint.fail {T U : Type} (p : SlicePoint T) : Progress (SlicePoint T) U Unit :=
  ⟨p, Status.Failure ()⟩

/-- Rust `SlicePoint::success` from `src/slices.rs`: slices `&self.s[..len]` and
`&self.s[len..]` with no guard of its own; `none` models the panic of the
slicing when `len` exceeds the remaining length. -/
def SlicePoint.success {T E : Type} (p : SlicePoint T) (len : Nat) :
    Option (Progress (SlicePoint T) (List T) E) :=
  if len ≤ p.s.length then
    some ⟨⟨p.offset + len, p.s.drop len⟩, Status.Success (p.s.take len)⟩
  else
    none

/-- Rust `SlicePoint::success_opt` from `src/slices.rs`. -/
def SlicePoint.success_opt {T : Type} (p : SlicePoint T) (len : Option Nat) :
    Option (Progress (SlicePoint T) (List T) Unit) :=
  match len with
  | some l => p.success l
  | none => some p.fail

/-- Rust `SlicePoint::consume` from `src/slices.rs`: succeeds via `success` iff
`0 < len ≤ remaining length`, otherwise fails in place. -/
def SlicePoint.consume {T : Type} (p : SlicePoint T) (len : Nat) :
    Option (Progress (SlicePoint T) (List T) Unit) :=
  if 0 < len ∧ len ≤ p.s.length then p.success len else some p.fail

/-- Rust `SlicePoint::consume_opt` from `src/slices.rs`. -/
def SlicePoint.consume_opt {T : Type} (p : SlicePoint T) (len : Option Nat) :
    Option (Progress (SlicePoint T) (List T) Unit) :=
  match len with
  | some l => p.consume l
  | none => some p.fail

/-- Rust `slice.get(0..len)` as used by `SlicePoint::tag`: `some` of the
prefix iff `len` is within bounds. -/
def sliceGetTo {T : Type} (s : List T) (len : Nat) : Option (List T) :=
  if len ≤ s.length then some (s.take len) else none

/-- Rust `SlicePoint::tag` from `src/slices.rs`: the closure applied to a point —
`p.success_opt(p.s.get(0..tag.len()).filter(|bytes| bytes == &tag).map(|b| b.len()))`. -/
def SlicePoint.tag {T : Type} [DecidableEq T] (t : List T) (p : SlicePoint T) :
    Option (Progress (SlicePoint T) (List T) Unit) :=
  p.success_opt (((sliceGetTo p.s t.length).filter fun bytes => decide (bytes = t)).map
    fun b => b.length)

/-- Rust `PartialEq for SlicePoint` from `src/slices.rs`: compares offsets only. -/
def SlicePoint.eq {T : Type} (a b : SlicePoint T) : Bool :=
  a.offset == b.offset

/-- Rust `Ord for SlicePoint` from `src/slices.rs`: compares offsets only. -/
def SlicePoint.cmp {T : Type} (a b : SlicePoint T) : Ordering :=
  compare a.offset b.offset

/-- A UTF-8 continuation byte (`0x80 ≤ b < 0xC0`), as in Rust's
`u8::is_utf8_char_boundary` (negated). -/
def isCont (b : Nat) : Bool :=
  0x80 ≤ b && b < 0xC0

/-- Rust `str::is_char_boundary`, the check performed by string slicing
`&s[..i]` / `&s[i..]`: true at 0, at the end, and at any in-range index
holding a non-continuation byte. -/
def isCharBoundary (s : List Nat) (i : Nat) : Bool :=
  i == 0 || i == s.length ||
    match s[i]? with
    | some b => !(isCont b)
    | none => false

/-- Structural UTF-8 validity of a byte list: a sequence of chunks whose
lead byte determines the chunk length, continuation bytes in `[0x80, 0xC0)`.
Every Rust `&str`, viewed as its bytes, satisfies this (full UTF-8
validity is strictly stronger); it is the type invariant under which the
string-slicing operations of `src/strings.rs` are panic-free. The state
argument counts the continuation bytes still expected. -/
def utf8ChunksAux : Nat → List Nat → Bool
  | 0, [] => true
  | 0, b :: rest =>
    if b < 0x80 then utf8ChunksAux 0 rest
    else if b < 0xC0 then false
    else if b < 0xE0 then utf8ChunksAux 1 rest
    else if b < 0xF0 then utf8ChunksAux 2 rest
    else utf8ChunksAux 3 rest
  | _ + 1, [] => false
  | k + 1, b :: rest => isCont b && utf8ChunksAux k rest

/-- Structural UTF-8 validity of a byte list, as a lead-byte/continuation
automaton: see `utf8ChunksAux`. -/
def utf8Chunks (l : List Nat) : Bool :=
  utf8ChunksAux 0 l

/-- Rust `StringPoint<'a>` from `src/strings.rs`: the remaining input (as UTF-8
bytes) plus the byte offset into the original string. -/
structure StringPoint : Type where
  s : List Nat
  offset : Nat
  deriving DecidableEq, Repr

/-- Rust `StringPoint::new` from `src/strings.rs`. -/
def StringPoint.new (s : List Nat) : StringPoint :=
  ⟨s, 0⟩

/-- Rust `StringPoint::success` from `src/strings.rs`: slices `&self.s[..len]`
and `&self.s[len..]` with no guard of its own; `none` models the panic of
string slicing when `len` is out of range or off a character boundary. -/
def StringPoint.success {E : Type} (p : StringPoint) (len : Nat) :
    Option (Progress StringPoint (List Nat) E) :=
  if isCharBoundary p.s len then
    some (Progress.success ⟨p.s.drop len, p.offset + len⟩ (p.s.take len))
  else
    none

/-- Rust `StringPoint::fail` from `src/strings.rs`. -/
def StringPoint.fail {T : Type} (p : StringPoint) : Progress StringPoint T Unit :=
  Progress.failure p ()

/-- Rust `StringPoint::consume_to` from `src/strings.rs`: `None` means failure,
`Some len` advances by `len` bytes via `success`. -/
def StringPoint.consume_to (p : StringPoint) (l : Option Nat) :
    Option (Progress StringPoint (List Nat) Unit) :=
  match l with
  | none => some p.fail
  | some len => p.success len

/-- Rust `StringPoint::consume_literal` from `src/strings.rs`: advances past the
literal iff the remaining input starts with it (`str::starts_with`, i.e.
byte-prefix for valid UTF-8). -/
def StringPoint.consume_literal (p : StringPoint) (val : List Nat) :
    Option (Progress StringPoint (List Nat) Unit) :=
  if val <+: p.s then p.success val.length else some p.fail

/-- Rust `StringPoint::consume_identifier` from `src/strings.rs`: tries each
`(literal, value)` pair in order; on the first literal that is a prefix of
the remaining input, consumes it and returns the associated value (the
source's `map_err(|_| unreachable!())` is on a branch that cannot fail and
is modelled by `map_err` to `()`). -/
def StringPoint.consume_identifier {T : Type} (p : StringPoint)
    (identifiers : List (List Nat × T)) : Option (Progress StringPoint T Unit) :=
  match identifiers with
  | [] => some p.fail
  | (identifier, item) :: rest =>
    if identifier <+: p.s then
      (p.consume_to (some identifier.length)).map fun pr =>
        (pr.map fun _ => item).map_err fun _ => ()
    else
      p.consume_identifier rest

/-- Derived `PartialEq for StringPoint` from `src/strings.rs`: structural,
comparing both the remaining input and the offset. -/
def StringPoint.eq (a b : StringPoint) : Bool :=
  decide (a.s = b.s) && a.offset == b.offset

/-- Rust `Ord for StringPoint` from `src/strings.rs`: compares offsets only. -/
def StringPoint.cmp (a b : StringPoint) : Ordering :=
  compare a.offset b.offset

/-- Rust `BytePoint<'a>` from `src/bytes.rs`: `SlicePoint<'a, u8>`, bytes
modelled as `Nat`. -/
abbrev BytePoint : Type := SlicePoint Nat

/-- Rust `uN::from_le_bytes`: assembles a natural number from bytes,
least-significant first. -/
def from_le_bytes : List Nat → Nat
  | [] => 0
  | b :: rest => b + 256 * from_le_bytes rest

/-- Rust `uN::from_be_bytes`: assembles a natural number from bytes,
most-significant first. -/
def from_be_bytes : List Nat → Nat
  | [] => 0
  | b :: rest => b * 256 ^ rest.length + from_be_bytes rest

/-- Two's-complement reading of a `k`-byte unsigned value, modelling the
value of Rust's `iN::from_le_bytes` / `iN::from_be_bytes` as an integer. -/
def toSigned (k : Nat) (n : Nat) : Int :=
  if n < 2 ^ (8 * k - 1) then (n : Int) else (n : Int) - 2 ^ (8 * k)

/-- Rust `u8_le` from `src/bytes/num.rs` (`impl_number!`):
`self.consume(size_of::<u8>()).map(u8::from_le_bytes ∘ try_into)`. -/
def SlicePoint.u8_le (p : BytePoint) : Option (Progress BytePoint Nat Unit) :=
  (p.consume 1).map fun pr => pr.map fun n => from_le_bytes n

/-- Rust `u8_be` from `src/bytes/num.rs`. -/
def SlicePoint.u8_be (p : BytePoint) : Option (Progress BytePoint Nat Unit) :=
  (p.consume 1).map fun pr => pr.map fun n => from_be_bytes n

/-- Rust `u16_le` from `src/bytes/num.rs`. -/
def SlicePoint.u16_le (p : BytePoint) : Option (Progress BytePoint Nat Unit) :=
  (p.consume 2).map fun pr => pr.map fun n => from_le_bytes n

/-- Rust `u16_be` from `src/bytes/num.rs`. -/
def SlicePoint.u16_be (p : BytePoint) : Option (Progress BytePoint Nat Unit) :=
  (p.consume 2).map fun pr => pr.map fun n => from_be_bytes n

/-- Rust `u32_le` from `src/bytes/num.rs`. -/
def SlicePoint.u32_le (p : BytePoint) : Option (Progress BytePoint Nat Unit) :=
  (p.consume 4).map fun pr => pr.map fun n => from_le_bytes n

/-- Rust `u32_be` from `src/bytes/num.rs`. -/
def SlicePoint.u32_be (p : BytePoint) : Option (Progress BytePoint Nat Unit) :=
  (p.consume 4).map fun pr => pr.map fun n => from_be_bytes n

/-- Rust `u64_le` from `src/bytes/num.rs`. -/
def SlicePoint.u64_le (p : BytePoint) : Option (Progress BytePoint Nat Unit) :=
  (p.consume 8).map fun pr => pr.map fun n => from_le_bytes n

/-- Rust `u64_be` from `src/bytes/num.rs`. -/
def SlicePoint.u64_be (p : BytePoint) : Option (Progress BytePoint Nat Unit) :=
  (p.consume 8).map fun pr => pr.map fun n => from_be_bytes n

/-- Rust `u128_le` from `src/bytes/num.rs`. -/
def SlicePoint.u128_le (p : BytePoint) : Option (Progress BytePoint Nat Unit) :=
  (p.consume 16).map fun pr => pr.map fun n => from_le_bytes n

/-- Rust `u128_be` from `src/bytes/num.rs`. -/
def SlicePoint.u128_be (p : BytePoint) : Option (Progress BytePoint Nat Unit) :=
  (p.consume 16).map fun pr => pr.map fun n => from_be_bytes n

/-- Rust `i8_le` from `src/bytes/num.rs`, value as two's-complement integer. -/
def SlicePoint.i8_le (p : BytePoint) : Option (Progress BytePoint Int Unit) :=
  (p.consume 1).map fun pr => pr.map fun n => toSigned 1 (from_le_bytes n)

/-- Rust `i8_be` from `src/bytes/num.rs`. -/
def SlicePoint.i8_be (p : BytePoint) : Option (Progress BytePoint Int Unit) :=
  (p.consume 1).map fun pr => pr.map fun n => toSigned 1 (from_be_bytes n)

/-- Rust `i16_le` from `src/bytes/num.rs`. -/
def SlicePoint.i16_le (p : BytePoint) : Option (Progress BytePoint Int Unit) :=
  (p.consume 2).map fun pr => pr.map fun n => toSigned 2 (from_le_bytes n)

/-- Rust `i16_be` from `src/bytes/num.rs`. -/
def SlicePoint.i16_be (p : BytePoint) : Option (Progress BytePoint Int Unit) :=
  (p.consume 2).map fun pr => pr.map fun n => toSigned 2 (from_be_bytes n)

/-- Rust `i32_le` from `src/bytes/num.rs`. -/
def SlicePoint.i32_le (p : BytePoint) : Option (Progress BytePoint Int Unit) :=
  (p.consume 4).map fun pr => pr.map fun n => toSigned 4 (from_le_bytes n)

/-- Rust `i32_be` from `src/bytes/num.rs`. -/
def SlicePoint.i32_be (p : BytePoint) : Option (Progress BytePoint Int Unit) :=
  (p.consume 4).map fun pr => pr.map fun n => toSigned 4 (from_be_bytes n)

/-- Rust `i64_le` from `src/bytes/num.rs`. -/
def SlicePoint.i64_le (p : BytePoint) : Option (Progress BytePoint Int Unit) :=
  (p.consume 8).map fun pr => pr.map fun n => toSigned 8 (from_le_bytes n)

/-- Rust `i64_be` from `src/bytes/num.rs`. -/
def SlicePoint.i64_be (p : BytePoint) : Option (Progress BytePoint Int Unit) :=
  (p.consume 8).map fun pr => pr.map fun n => toSigned 8 (from_be_bytes n)

/-- Rust `i128_le` from `src/bytes/num.rs`. -/
def SlicePoint.i128_le (p : BytePoint) : Option (Progress BytePoint Int Unit) :=
  (p.consume 16).map fun pr => pr.map fun n => toSigned 16 (from_le_bytes n)

/-- Rust `i128_be` from `src/bytes/num.rs`. -/
def SlicePoint.i128_be (p : BytePoint) : Option (Progress BytePoint Int Unit) :=
  (p.consume 16).map fun pr => pr.map fun n => toSigned 16 (from_be_bytes n)

/-- Rust `f32_le` from `src/bytes/num.rs`; the IEEE-754 value is represented by
its bit pattern (`f32::from_le_bytes` is `f32::from_bits ∘
u32::from_le_bytes`, and `from_bits` is bit-preserving). -/
def SlicePoint.f32_le (p : BytePoint) : Option (Progress BytePoint Nat Unit) :=
  (p.consume 4).map fun pr => pr.map fun n => from_le_bytes n

/-- Rust `f32_be` from `src/bytes/num.rs`, value as bit pattern. -/
def SlicePoint.f32_be (p : BytePoint) : Option (Progress BytePoint Nat Unit) :=
  (p.consume 4).map fun pr => pr.map fun n => from_be_bytes n

/-- Rust `f64_le` from `src/bytes/num.rs`, value as bit pattern. -/
def SlicePoint.f64_le (p : BytePoint) : Option (Progress BytePoint Nat Unit) :=
  (p.consume 8).map fun pr => pr.map fun n => from_le_bytes n

/-- Rust `f64_be` from `src/bytes/num.rs`, value as bit pattern. -/
def SlicePoint.f64_be (p : BytePoint) : Option (Progress BytePoint Nat Unit) :=
  (p.consume 8).map fun pr => pr.map fun n => from_be_bytes n

/-- The point whose first `k` remaining bytes are reversed; used to state
the little-endian/big-endian byte-reversal relation. -/
def revPoint (k : Nat) (p : BytePoint) : BytePoint :=
  ⟨p.offset, (p.s.take k).reverse ++ p.s.drop k⟩

/-- Rust `ProgressExt::context` from `src/snafu.rs`:
`self.map_err(|e| context.into_error(e))`, with snafu's `IntoError`
capability modelled as the function it denotes. -/
def Progress.context {P T E E2 : Type} (pr : Progress P T E) (into_error : E → E2) :
    Progress P T E2 :=
  pr.map_err fun e => into_error e

/-- Modelled from the spec: `ParseMaster::zero_or_more` of the crate root
(not among the provided sources) — "repeatedly applies `f` to the current
point, appending each success's value to an ordered sequence, until `f`
fails. A failure that is recoverable ends the loop successfully with the
accumulated sequence (possibly empty) and the point from before the failing
attempt. A fatal failure aborts the whole repetition and propagates that
failure." `recoverable` models the `Recoverable` capability of the error
type; `fuel` bounds the iteration count, `none` modelling non-termination
(or a panic inside `f`). -/
def zero_or_more {P T E : Type} (recoverable : E → Bool) :
    Nat → (P → Option (Progress P T E)) → P → Option (Progress P (List T) E)
  | 0, _, _ => none
  | fuel + 1, f, p =>
    match f p with
    | none => none
    | some ⟨p2, Status.Failure e⟩ =>
      if recoverable e then some ⟨p, Status.Success []⟩
      else some ⟨p2, Status.Failure e⟩
    | some ⟨p2, Status.Success v⟩ =>
      match zero_or_more recoverable fuel f p2 with
      | none => none
      | some ⟨p3, Status.Success vs⟩ => some ⟨p3, Status.Success (v :: vs)⟩
      | some ⟨p3, Status.Failure e⟩ => some ⟨p3, Status.Failure e⟩

theorem SlicePoint.consume_of_pos_of_le {T : Type} (p : SlicePoint T) (len : Nat)
    (h1 : 0 < len) (h2 : len ≤ p.s.length) :
    p.consume len =
      some ⟨⟨p.offset + len, p.s.drop len⟩, Status.Success (p.s.take len)⟩ := by
  simp [SlicePoint.consume, SlicePoint.success, h1, h2]

theorem SlicePoint.consume_of_not {T : Type} (p : SlicePoint T) (len : Nat)
    (h : ¬(0 < len ∧ len ≤ p.s.length)) :
    p.consume len = some ⟨p, Status.Failure ()⟩ := by
  simp only [SlicePoint.consume, if_neg h, SlicePoint.fail]

theorem decode_of_short {A : Type} (g : List Nat → A) (k : Nat) (p : BytePoint)
    (h : p.s.length < k) :
    ((p.consume k).map fun pr => pr.map g) = some ⟨p, Status.Failure ()⟩ := by
  rw [SlicePoint.consume_of_not p k (by omega)]
  simp [Progress.map]

theorem decode_of_long {A : Type} (g : List Nat → A) (k : Nat) (p : BytePoint)
    (hk : 0 < k) (h : k ≤ p.s.length) :
    ((p.consume k).map fun pr => pr.map g) =
      some ⟨⟨p.offset + k, p.s.drop k⟩, Status.Success (g (p.s.take k))⟩ := by
  rw [SlicePoint.consume_of_pos_of_le p k hk h]
  simp [Progress.map]

/-- C2: `SlicePoint::consume(len)` succeeds, advancing the offset by `len`
and returning the consumed prefix of the remaining input, iff
`0 < len ≤ remaining length`; otherwise (including `len = 0` and
`len > remaining`) it fails with the returned point identical to the
pre-call point. -/
theorem consume_succeeds_iff_pos_and_in_range {T : Type} (p : SlicePoint T) (len : Nat) :
    (0 < len ∧ len ≤ p.s.length →
      p.consume len =
        some ⟨⟨p.offset + len, p.s.drop len⟩, Status.Success (p.s.take len)⟩) ∧
    (¬(0 < len ∧ len ≤ p.s.length) →
      p.consume len = some ⟨p, Status.Failure ()⟩) :=
  ⟨fun h => SlicePoint.consume_of_pos_of_le p len h.1 h.2,
   fun h => SlicePoint.consume_of_not p len h⟩

/-- Witness for C2 at concrete inputs: `consume 2` on 3 remaining elements
succeeds, `consume 0` and `consume 4` fail in place. -/
theorem consume_succeeds_iff_pos_and_in_range_witness :
    (SlicePoint.consume ⟨0, [5, 6, 7]⟩ 2 =
      some ⟨⟨2, [7]⟩, Status.Success [5, 6]⟩) ∧
    (SlicePoint.consume ⟨0, [5, 6, 7]⟩ 0 =
      some ⟨⟨0, [5, 6, 7]⟩, Status.Failure ()⟩) ∧
    (SlicePoint.consume ⟨0, [5, 6, 7]⟩ 4 =
      some ⟨⟨0, [5, 6, 7]⟩, Status.Failure ()⟩) :=
  ⟨(consume_succeeds_iff_pos_and_in_range ⟨0, [5, 6, 7]⟩ 2).1 (by decide),
   (consume_succeeds_iff_pos_and_in_range ⟨0, [5, 6, 7]⟩ 0).2 (by decide),
   (consume_succeeds_iff_pos_and_in_range ⟨0, [5, 6, 7]⟩ 4).2 (by decide)⟩

/-- C3: every fixed-width numeric decoder (`u8`..`u128`, `i8`..`i128`,
`f32`, `f64`, little- and big-endian) fails exactly when fewer bytes
remain than the width requires, and on failure the returned point
equals the pre-call point (same offset, same remaining input); with
enough bytes it succeeds. -/
theorem decoders_fail_iff_short :
    (∀ p : BytePoint,
      (p.s.length < 1 → p.u8_le = some ⟨p, Status.Failure ()⟩) ∧
      (1 ≤ p.s.length →
        ∃ v, p.u8_le = some ⟨⟨p.offset + 1, p.s.drop 1⟩, Status.Success v⟩)) ∧
    (∀ p : BytePoint,
      (p.s.length < 1 → p.u8_be = some ⟨p, Status.Failure ()⟩) ∧
      (1 ≤ p.s.length →
        ∃ v, p.u8_be = some ⟨⟨p.offset + 1, p.s.drop 1⟩, Status.Success v⟩)) ∧
    (∀ p : BytePoint,
      (p.s.length < 2 → p.u16_le = some ⟨p, Status.Failure ()⟩) ∧
      (2 ≤ p.s.length →
        ∃ v, p.u16_le = some ⟨⟨p.offset + 2, p.s.drop 2⟩, Status.Success v⟩)) ∧
    (∀ p : BytePoint,
      (p.s.length < 2 → p.u16_be = some ⟨p, Status.Failure ()⟩) ∧
      (2 ≤ p.s.length →
        ∃ v, p.u16_be = some ⟨⟨p.offset + 2, p.s.drop 2⟩, Status.Success v⟩)) ∧
    (∀ p : BytePoint,
      (p.s.length < 4 → p.u32_le = some ⟨p, Status.Failure ()⟩) ∧
      (4 ≤ p.s.length →
        ∃ v, p.u32_le = some ⟨⟨p.offset + 4, p.s.drop 4⟩, Status.Success v⟩)) ∧
    (∀ p : BytePoint,
      (p.s.length < 4 → p.u32_be = some ⟨p, Status.Failure ()⟩) ∧
      (4 ≤ p.s.length →
        ∃ v, p.u32_be = some ⟨⟨p.offset + 4, p.s.drop 4⟩, Status.Success v⟩)) ∧
    (∀ p : BytePoint,
      (p.s.length < 8 → p.u64_le = some ⟨p, Status.Failure ()⟩) ∧
      (8 ≤ p.s.length →
        ∃ v, p.u64_le = some ⟨⟨p.offset + 8, p.s.drop 8⟩, Status.Success v⟩)) ∧
    (∀ p : BytePoint,
      (p.s.length < 8 → p.u64_be = some ⟨p, Status.Failure ()⟩) ∧
      (8 ≤ p.s.length →
        ∃ v, p.u64_be = some ⟨⟨p.offset + 8, p.s.drop 8⟩, Status.Success v⟩)) ∧
    (∀ p : BytePoint,
      (p.s.length < 16 → p.u128_le = some ⟨p, Status.Failure ()⟩) ∧
      (16 ≤ p.s.length →
        ∃ v, p.u128_le = some ⟨⟨p.offset + 16, p.s.drop 16⟩, Status.Success v⟩)) ∧
    (∀ p : BytePoint,
      (p.s.length < 16 → p.u128_be = some ⟨p, Status.Failure ()⟩) ∧
      (16 ≤ p.s.length →
        ∃ v, p.u128_be = some ⟨⟨p.offset + 16, p.s.drop 16⟩, Status.Success v⟩)) ∧
    (∀ p : BytePoint,
      (p.s.length < 1 → p.i8_le = some ⟨p, Status.Failure ()⟩) ∧
      (1 ≤ p.s.length →
        ∃ v, p.i8_le = some ⟨⟨p.offset + 1, p.s.drop 1⟩, Status.Success v⟩)) ∧
    (∀ p : BytePoint,
      (p.s.length < 1 → p.i8_be = some ⟨p, Status.Failure ()⟩) ∧
      (1 ≤ p.s.length →
        ∃ v, p.i8_be = some ⟨⟨p.offset + 1, p.s.drop 1⟩, Status.Success v⟩)) ∧
    (∀ p : BytePoint,
      (p.s.length < 2 → p.i16_le = some ⟨p, Status.Failure ()⟩) ∧
      (2 ≤ p.s.length →
        ∃ v, p.i16_le = some ⟨⟨p.offset + 2, p.s.drop 2⟩, Status.Success v⟩)) ∧
    (∀ p : BytePoint,
      (p.s.length < 2 → p.i16_be = some ⟨p, Status.Failure ()⟩) ∧
      (2 ≤ p.s.length →
        ∃ v, p.i16_be = some ⟨⟨p.offset + 2, p.s.drop 2⟩, Status.Success v⟩)) ∧
    (∀ p : BytePoint,
      (p.s.length < 4 → p.i32_le = some ⟨p, Status.Failure ()⟩) ∧
      (4 ≤ p.s.length →
        ∃ v, p.i32_le = some ⟨⟨p.offset + 4, p.s.drop 4⟩, Status.Success v⟩)) ∧
    (∀ p : BytePoint,
      (p.s.length < 4 → p.i32_be = some ⟨p, Status.Failure ()⟩) ∧
      (4 ≤ p.s.length →
        ∃ v, p.i32_be = some ⟨⟨p.offset + 4, p.s.drop 4⟩, Status.Success v⟩)) ∧
    (∀ p : BytePoint,
      (p.s.length < 8 → p.i64_le = some ⟨p, Status.Failure ()⟩) ∧
      (8 ≤ p.s.length →
        ∃ v, p.i64_le = some ⟨⟨p.offset + 8, p.s.drop 8⟩, Status.Success v⟩)) ∧
    (∀ p : BytePoint,
      (p.s.length < 8 → p.i64_be = some ⟨p, Status.Failure ()⟩) ∧
      (8 ≤ p.s.length →
        ∃ v, p.i64_be = some ⟨⟨p.offset + 8, p.s.drop 8⟩, Status.Success v⟩)) ∧
    (∀ p : BytePoint,
      (p.s.length < 16 → p.i128_le = some ⟨p, Status.Failure ()⟩) ∧
      (16 ≤ p.s.length →
        ∃ v, p.i128_le = some ⟨⟨p.offset + 16, p.s.drop 16⟩, Status.Success v⟩)) ∧
    (∀ p : BytePoint,
      (p.s.length < 16 → p.i128_be = some ⟨p, Status.Failure ()⟩) ∧
      (16 ≤ p.s.length →
        ∃ v, p.i128_be = some ⟨⟨p.offset + 16, p.s.drop 16⟩, Status.Success v⟩)) ∧
    (∀ p : BytePoint,
      (p.s.length < 4 → p.f32_le = some ⟨p, Status.Failure ()⟩) ∧
      (4 ≤ p.s.length →
        ∃ v, p.f32_le = some ⟨⟨p.offset + 4, p.s.drop 4⟩, Status.Success v⟩)) ∧
    (∀ p : BytePoint,
      (p.s.length < 4 → p.f32_be = some ⟨p, Status.Failure ()⟩) ∧
      (4 ≤ p.s.length →
        ∃ v, p.f32_be = some ⟨⟨p.offset + 4, p.s.drop 4⟩, Status.Success v⟩)) ∧
    (∀ p : BytePoint,
      (p.s.length < 8 → p.f64_le = some ⟨p, Status.Failure ()⟩) ∧
      (8 ≤ p.s.length →
        ∃ v, p.f64_le = some ⟨⟨p.offset + 8, p.s.drop 8⟩, Status.Success v⟩)) ∧
    (∀ p : BytePoint,
      (p.s.length < 8 → p.f64_be = some ⟨p, Status.Failure ()⟩) ∧
      (8 ≤ p.s.length →
        ∃ v, p.f64_be = some ⟨⟨p.offset + 8, p.s.drop 8⟩, Status.Success v⟩)) :=
  ⟨fun p => ⟨fun h => decode_of_short _ 1 p h,
     fun h => ⟨_, decode_of_long _ 1 p (by omega) h⟩⟩,
   fun p => ⟨fun h => decode_of_short _ 1 p h,
     fun h => ⟨_, decode_of_long _ 1 p (by omega) h⟩⟩,
   fun p => ⟨fun h => decode_of_short _ 2 p h,
     fun h => ⟨_, decode_of_long _ 2 p (by omega) h⟩⟩,
   fun p => ⟨fun h => decode_of_short _ 2 p h,
     fun h => ⟨_, decode_of_long _ 2 p (by omega) h⟩⟩,
   fun p => ⟨fun h => decode_of_short _ 4 p h,
     fun h => ⟨_, decode_of_long _ 4 p (by omega) h⟩⟩,
   fun p => ⟨fun h => decode_of_short _ 4 p h,
     fun h => ⟨_, decode_of_long _ 4 p (by omega) h⟩⟩,
   fun p => ⟨fun h => decode_of_short _ 8 p h,
     fun h => ⟨_, decode_of_long _ 8 p (by omega) h⟩⟩,
   fun p => ⟨fun h => decode_of_short _ 8 p h,
     fun h => ⟨_, decode_of_long _ 8 p (by omega) h⟩⟩,
   fun p => ⟨fun h => decode_of_short _ 16 p h,
     fun h => ⟨_, decode_of_long _ 16 p (by omega) h⟩⟩,
   fun p => ⟨fun h => decode_of_short _ 16 p h,
     fun h => ⟨_, decode_of_long _ 16 p (by omega) h⟩⟩,
   fun p => ⟨fun h => decode_of_short _ 1 p h,
     fun h => ⟨_, decode_of_long _ 1 p (by omega) h⟩⟩,
   fun p => ⟨fun h => decode_of_short _ 1 p h,
     fun h => ⟨_, decode_of_long _ 1 p (by omega) h⟩⟩,
   fun p => ⟨fun h => decode_of_short _ 2 p h,
     fun h => ⟨_, decode_of_long _ 2 p (by omega) h⟩⟩,
   fun p => ⟨fun h => decode_of_short _ 2 p h,
     fun h => ⟨_, decode_of_long _ 2 p (by omega) h⟩⟩,
   fun p => ⟨fun h => decode_of_short _ 4 p h,
     fun h => ⟨_, decode_of_long _ 4 p (by omega) h⟩⟩,
   fun p => ⟨fun h => decode_of_short _ 4 p h,
     fun h => ⟨_, decode_of_long _ 4 p (by omega) h⟩⟩,
   fun p => ⟨fun h => decode_of_short _ 8 p h,
     fun h => ⟨_, decode_of_long _ 8 p (by omega) h⟩⟩,
   fun p => ⟨fun h => decode_of_short _ 8 p h,
     fun h => ⟨_, decode_of_long _ 8 p (by omega) h⟩⟩,
   fun p => ⟨fun h => decode_of_short _ 16 p h,
     fun h => ⟨_, decode_of_long _ 16 p (by omega) h⟩⟩,
   fun p => ⟨fun h => decode_of_short _ 16 p h,
     fun h => ⟨_, decode_of_long _ 16 p (by omega) h⟩⟩,
   fun p => ⟨fun h => decode_of_short _ 4 p h,
     fun h => ⟨_, decode_of_long _ 4 p (by omega) h⟩⟩,
   fun p => ⟨fun h => decode_of_short _ 4 p h,
     fun h => ⟨_, decode_of_long _ 4 p (by omega) h⟩⟩,
   fun p => ⟨fun h => decode_of_short _ 8 p h,
     fun h => ⟨_, decode_of_long _ 8 p (by omega) h⟩⟩,
   fun p => ⟨fun h => decode_of_short _ 8 p h,
     fun h => ⟨_, decode_of_long _ 8 p (by omega) h⟩⟩⟩

/-- Witness for C3 at concrete inputs: `u8_le` on empty input fails in
place; `u16_le` on two bytes succeeds. -/
theorem decoders_fail_iff_short_witness :
    (SlicePoint.u8_le ⟨0, []⟩ = some ⟨⟨0, []⟩, Status.Failure ()⟩) ∧
    (∃ v, SlicePoint.u16_le ⟨0, [1, 2]⟩ = some ⟨⟨2, []⟩, Status.Success v⟩) :=
  ⟨(decoders_fail_iff_short.1 ⟨0, []⟩).1 (by decide),
   (decoders_fail_iff_short.2.2.1 ⟨0, [1, 2]⟩).2 (by decide)⟩

theorem from_be_bytes_append (l : List Nat) (b : Nat) :
    from_be_bytes (l ++ [b]) = from_be_bytes l * 256 + b := by
  induction l with
  | nil => simp [from_be_bytes]
  | cons a l ih =>
    simp only [List.cons_append, from_be_bytes, ih, List.append_eq, List.length_append,
      List.length_cons, List.length_nil]
    ring

theorem from_le_bytes_eq_from_be_bytes_reverse (l : List Nat) :
    from_le_bytes l = from_be_bytes l.reverse := by
  induction l with
  | nil => rfl
  | cons b l ih =>
    simp only [from_le_bytes, List.reverse_cons, from_be_bytes_append, ih]
    ring

theorem revPoint_take (k : Nat) (p : BytePoint) (h : k ≤ p.s.length) :
    (revPoint k p).s.take k = (p.s.take k).reverse := by
  have hl : ((p.s.take k).reverse).length = k := by
    simp [List.length_reverse, List.length_take, Nat.min_eq_left h]
  simp only [revPoint]
  rw [List.take_left' hl]

theorem revPoint_drop (k : Nat) (p : BytePoint) (h : k ≤ p.s.length) :
    (revPoint k p).s.drop k = p.s.drop k := by
  have hl : ((p.s.take k).reverse).length = k := by
    simp [List.length_reverse, List.length_take, Nat.min_eq_left h]
  simp only [revPoint]
  rw [List.drop_left' hl]

theorem revPoint_length (k : Nat) (p : BytePoint) : (revPoint k p).s.length = p.s.length := by
  simp [revPoint, List.length_append, List.length_reverse, List.length_take, List.length_drop]
  omega

theorem decode_rev {A : Type} (g : Nat → A) (k : Nat) (p : BytePoint)
    (hk : 0 < k) (h : k ≤ p.s.length) :
    ((p.consume k).map fun pr => pr.map fun n => g (from_le_bytes n)) =
      some ⟨⟨p.offset + k, p.s.drop k⟩,
        Status.Success (g (from_le_bytes (p.s.take k)))⟩ ∧
    (((revPoint k p).consume k).map fun pr => pr.map fun n => g (from_be_bytes n)) =
      some ⟨⟨p.offset + k, p.s.drop k⟩,
        Status.Success (g (from_le_bytes (p.s.take k)))⟩ := by
  refine ⟨decode_of_long _ k p hk h, ?_⟩
  rw [decode_of_long _ k (revPoint k p) hk (by rw [revPoint_length]; exact h)]
  rw [revPoint_take k p h, revPoint_drop k p h]
  have : from_be_bytes (p.s.take k).reverse = from_le_bytes (p.s.take k) :=
    (from_le_bytes_eq_from_be_bytes_reverse (p.s.take k)).symm
  rw [this]
  rfl

/-- C4: for every numeric width, when at least the width's byte count
remains, the little-endian and big-endian decoders of that width both
succeed and advance the point by exactly the width's byte count, and
the LE-decoded value of a byte sequence equals the BE-decoded value of
the byte-reversed sequence (signed values via two's complement, floats
via their bit patterns). -/
theorem decoders_le_be_reversal :
    (∀ p : BytePoint, 1 ≤ p.s.length →
      p.u8_le =
        some ⟨⟨p.offset + 1, p.s.drop 1⟩, Status.Success (from_le_bytes (p.s.take 1))⟩ ∧
      (revPoint 1 p).u8_be =
        some ⟨⟨p.offset + 1, p.s.drop 1⟩, Status.Success (from_le_bytes (p.s.take 1))⟩) ∧
    (∀ p : BytePoint, 2 ≤ p.s.length →
      p.u16_le =
        some ⟨⟨p.offset + 2, p.s.drop 2⟩, Status.Success (from_le_bytes (p.s.take 2))⟩ ∧
      (revPoint 2 p).u16_be =
        some ⟨⟨p.offset + 2, p.s.drop 2⟩, Status.Success (from_le_bytes (p.s.take 2))⟩) ∧
    (∀ p : BytePoint, 4 ≤ p.s.length →
      p.u32_le =
        some ⟨⟨p.offset + 4, p.s.drop 4⟩, Status.Success (from_le_bytes (p.s.take 4))⟩ ∧
      (revPoint 4 p).u32_be =
        some ⟨⟨p.offset + 4, p.s.drop 4⟩, Status.Success (from_le_bytes (p.s.take 4))⟩) ∧
    (∀ p : BytePoint, 8 ≤ p.s.length →
      p.u64_le =
        some ⟨⟨p.offset + 8, p.s.drop 8⟩, Status.Success (from_le_bytes (p.s.take 8))⟩ ∧
      (revPoint 8 p).u64_be =
        some ⟨⟨p.offset + 8, p.s.drop 8⟩, Status.Success (from_le_bytes (p.s.take 8))⟩) ∧
    (∀ p : BytePoint, 16 ≤ p.s.length →
      p.u128_le =
        some ⟨⟨p.offset + 16, p.s.drop 16⟩, Status.Success (from_le_bytes (p.s.take 16))⟩ ∧
      (revPoint 16 p).u128_be =
        some ⟨⟨p.offset + 16, p.s.drop 16⟩, Status.Success (from_le_bytes (p.s.take 16))⟩) ∧
    (∀ p : BytePoint, 1 ≤ p.s.length →
      p.i8_le =
        some ⟨⟨p.offset + 1, p.s.drop 1⟩, Status.Success (toSigned 1 (from_le_bytes (p.s.take 1)))⟩ ∧
      (revPoint 1 p).i8_be =
        some ⟨⟨p.offset + 1, p.s.drop 1⟩, Status.Success (toSigned 1 (from_le_bytes (p.s.take 1)))⟩) ∧
    (∀ p : BytePoint, 2 ≤ p.s.length →
      p.i16_le =
        some ⟨⟨p.offset + 2, p.s.drop 2⟩, Status.Success (toSigned 2 (from_le_bytes (p.s.take 2)))⟩ ∧
      (revPoint 2 p).i16_be =
        some ⟨⟨p.offset + 2, p.s.drop 2⟩, Status.Success (toSigned 2 (from_le_bytes (p.s.take 2)))⟩) ∧
    (∀ p : BytePoint, 4 ≤ p.s.length →
      p.i32_le =
        some ⟨⟨p.offset + 4, p.s.drop 4⟩, Status.Success (toSigned 4 (from_le_bytes (p.s.take 4)))⟩ ∧
      (revPoint 4 p).i32_be =
        some ⟨⟨p.offset + 4, p.s.drop 4⟩, Status.Success (toSigned 4 (from_le_bytes (p.s.take 4)))⟩) ∧
    (∀ p : BytePoint, 8 ≤ p.s.length →
      p.i64_le =
        some ⟨⟨p.offset + 8, p.s.drop 8⟩, Status.Success (toSigned 8 (from_le_bytes (p.s.take 8)))⟩ ∧
      (revPoint 8 p).i64_be =
        some ⟨⟨p.offset + 8, p.s.drop 8⟩, Status.Success (toSigned 8 (from_le_bytes (p.s.take 8)))⟩) ∧
    (∀ p : BytePoint, 16 ≤ p.s.length →
      p.i128_le =
        some ⟨⟨p.offset + 16, p.s.drop 16⟩, Status.Success (toSigned 16 (from_le_bytes (p.s.take 16)))⟩ ∧
      (revPoint 16 p).i128_be =
        some ⟨⟨p.offset + 16, p.s.drop 16⟩, Status.Success (toSigned 16 (from_le_bytes (p.s.take 16)))⟩) ∧
    (∀ p : BytePoint, 4 ≤ p.s.length →
      p.f32_le =
        some ⟨⟨p.offset + 4, p.s.drop 4⟩, Status.Success (from_le_bytes (p.s.take 4))⟩ ∧
      (revPoint 4 p).f32_be =
        some ⟨⟨p.offset + 4, p.s.drop 4⟩, Status.Success (from_le_bytes (p.s.take 4))⟩) ∧
    (∀ p : BytePoint, 8 ≤ p.s.length →
      p.f64_le =
        some ⟨⟨p.offset + 8, p.s.drop 8⟩, Status.Success (from_le_bytes (p.s.take 8))⟩ ∧
      (revPoint 8 p).f64_be =
        some ⟨⟨p.offset + 8, p.s.drop 8⟩, Status.Success (from_le_bytes (p.s.take 8))⟩) :=
  ⟨fun p h => decode_rev (fun n => n) 1 p (by omega) h,
   fun p h => decode_rev (fun n => n) 2 p (by omega) h,
   fun p h => decode_rev (fun n => n) 4 p (by omega) h,
   fun p h => decode_rev (fun n => n) 8 p (by omega) h,
   fun p h => decode_rev (fun n => n) 16 p (by omega) h,
   fun p h => decode_rev (toSigned 1) 1 p (by omega) h,
   fun p h => decode_rev (toSigned 2) 2 p (by omega) h,
   fun p h => decode_rev (toSigned 4) 4 p (by omega) h,
   fun p h => decode_rev (toSigned 8) 8 p (by omega) h,
   fun p h => decode_rev (toSigned 16) 16 p (by omega) h,
   fun p h => decode_rev (fun n => n) 4 p (by omega) h,
   fun p h => decode_rev (fun n => n) 8 p (by omega) h⟩

/-- Witness for C4 at a concrete input: `u16_le` on `[1, 2]` and `u16_be`
on the reversed bytes `[2, 1]` both yield `0x0201` and advance by 2. -/
theorem decoders_le_be_reversal_witness :
    SlicePoint.u16_le ⟨0, [1, 2]⟩ = some ⟨⟨2, []⟩, Status.Success 513⟩ ∧
    SlicePoint.u16_be (revPoint 2 ⟨0, [1, 2]⟩) = some ⟨⟨2, []⟩, Status.Success 513⟩ :=
  decoders_le_be_reversal.2.1 ⟨0, [1, 2]⟩ (by decide)

/-- Counterexample to C7: `PartialEq for SlicePoint` compares only the
offset, so two `SlicePoint`s with equal offset but different remaining
slices compare as equal, contradicting "two SlicePoints with equal offset
but different remaining slices are unequal". -/
theorem slicePoint_eq_ignores_slice_counterexample :
    SlicePoint.eq (⟨0, [1]⟩ : SlicePoint Nat) ⟨0, [2]⟩ = true ∧
    (⟨0, [1]⟩ : SlicePoint Nat) ≠ ⟨0, [2]⟩ := by
  decide

/-- C7 amended: `StringPoint` equality (derived) is structural on both the
remaining input and the offset; `SlicePoint` equality compares only the
offset (so equal-offset points with different slices are equal); the `Ord`
implementations of both point types compare only the offset. -/
theorem point_eq_ord_structure :
    (∀ a b : StringPoint, StringPoint.eq a b = true ↔ a.s = b.s ∧ a.offset = b.offset) ∧
    (∀ (T : Type) (a b : SlicePoint T), SlicePoint.eq a b = true ↔ a.offset = b.offset) ∧
    (∀ (T : Type) (a b : SlicePoint T), SlicePoint.cmp a b = compare a.offset b.offset) ∧
    (∀ a b : StringPoint, StringPoint.cmp a b = compare a.offset b.offset) := by
  refine ⟨fun a b => ?_, fun T a b => ?_, fun T a b => rfl, fun a b => rfl⟩
  · simp [StringPoint.eq]
  · simp [SlicePoint.eq]

/-- C8: the error-context adaptation `ProgressExt::context` leaves the
point unchanged in all cases, passes a `Success` status through unchanged,
and wraps only the `Failure` payload via the supplied conversion. -/
theorem context_only_wraps_failure (P T E E2 : Type) (into_error : E → E2)
    (pr : Progress P T E) :
    (pr.context into_error).point = pr.point ∧
    (∀ v, pr.status = Status.Success v →
      (pr.context into_error).status = Status.Success v) ∧
    (∀ e, pr.status = Status.Failure e →
      (pr.context into_error).status = Status.Failure (into_error e)) := by
  obtain ⟨pt, st⟩ := pr
  cases st <;> simp [Progress.context, Progress.map_err]

/-- Witness for C8 at concrete inputs: a success passes through unchanged
and a failure payload is wrapped, the point untouched in both cases. -/
theorem context_only_wraps_failure_witness :
    ((Progress.context (P := Nat) (T := Nat) ⟨7, Status.Success 5⟩
        (fun e : Nat => e + 1)).point = 7 ∧
      (Progress.context (P := Nat) (T := Nat) ⟨7, Status.Success 5⟩
        (fun e : Nat => e + 1)).status = Status.Success 5) ∧
    ((Progress.context (P := Nat) (T := Nat) ⟨9, Status.Failure 3⟩
        (fun e : Nat => e + 1)).point = 9 ∧
      (Progress.context (P := Nat) (T := Nat) ⟨9, Status.Failure 3⟩
        (fun e : Nat => e + 1)).status = Status.Failure 4) :=
  ⟨⟨(context_only_wraps_failure Nat Nat Nat Nat _ ⟨7, Status.Success 5⟩).1,
    (context_only_wraps_failure Nat Nat Nat Nat _ ⟨7, Status.Success 5⟩).2.1 5 rfl⟩,
   ⟨(context_only_wraps_failure Nat Nat Nat Nat _ ⟨9, Status.Failure 3⟩).1,
    (context_only_wraps_failure Nat Nat Nat Nat _ ⟨9, Status.Failure 3⟩).2.2 3 rfl⟩⟩

theorem isCharBoundary_iff (s : List Nat) (i : Nat) :
    isCharBoundary s i = true ↔
      i = 0 ∨ i = s.length ∨ ∃ b, s[i]? = some b ∧ isCont b = false := by
  cases hx : s[i]? <;> simp [isCharBoundary, hx, or_assoc]

theorem isCharBoundary_le (s : List Nat) (i : Nat)
    (h : isCharBoundary s i = true) : i ≤ s.length := by
  rcases (isCharBoundary_iff s i).1 h with h0 | hl | ⟨b, hb, _⟩
  · omega
  · omega
  · obtain ⟨hi, -⟩ := List.getElem?_eq_some_iff.1 hb
    omega

theorem isCharBoundary_zero (s : List Nat) : isCharBoundary s 0 = true := by
  simp [isCharBoundary]

/-- C9: `StringPoint::success(len)` (and `consume_to(Some(len))`, which is
defined as `success(len)`) slices the remaining string with no guard of its
own: it produces a `Progress` exactly under the precondition that `len` is
at most the remaining length and falls on a UTF-8 character boundary, and
panics (modelled as `none`) outside it — unlike `SlicePoint::consume`,
which guards the length itself and fails instead of panicking. -/
theorem success_panics_off_boundary :
    (∀ (p : StringPoint) (len : Nat),
      (∃ r, StringPoint.success (E := Unit) p len = some r) ↔
        len ≤ p.s.length ∧ isCharBoundary p.s len = true) ∧
    (∀ (p : StringPoint) (len : Nat),
      p.consume_to (some len) = StringPoint.success p len) ∧
    (∀ (p : SlicePoint Nat) (len : Nat), ∃ r, p.consume len = some r) := by
  refine ⟨fun p len => ?_, fun p len => rfl, fun p len => ?_⟩
  · constructor
    · rintro ⟨r, hr⟩
      by_cases hb : isCharBoundary p.s len
      · exact ⟨isCharBoundary_le p.s len hb, hb⟩
      · simp [StringPoint.success, hb] at hr
    · rintro ⟨-, hb⟩
      exact ⟨Progress.success ⟨p.s.drop len, p.offset + len⟩ (p.s.take len),
        by simp [StringPoint.success, hb]⟩
  · by_cases hc : 0 < len ∧ len ≤ p.s.length
    · exact ⟨_, SlicePoint.consume_of_pos_of_le p len hc.1 hc.2⟩
    · exact ⟨_, SlicePoint.consume_of_not p len hc⟩

/-- Witness for C9 at concrete inputs: `success 1` on the two-byte
character `é` (bytes `[0xC3, 0xA9]`) panics, `success 1` on `"a"`
succeeds, and `consume 5` on a 1-element slice fails without panicking. -/
theorem success_panics_off_boundary_witness :
    ¬(∃ r, StringPoint.success (E := Unit) ⟨[0xC3, 0xA9], 0⟩ 1 = some r) ∧
    (∃ r, StringPoint.success (E := Unit) ⟨[97], 0⟩ 1 = some r) ∧
    StringPoint.consume_to ⟨[97], 0⟩ (some 3) = StringPoint.success ⟨[97], 0⟩ 3 ∧
    (∃ r, SlicePoint.consume (⟨0, [5]⟩ : SlicePoint Nat) 5 = some r) :=
  ⟨fun h => by
      have := (success_panics_off_boundary.1 ⟨[0xC3, 0xA9], 0⟩ 1).1 h
      revert this
      decide,
   (success_panics_off_boundary.1 ⟨[97], 0⟩ 1).2 (by decide),
   success_panics_off_boundary.2.1 ⟨[97], 0⟩ 3,
   success_panics_off_boundary.2.2 ⟨0, [5]⟩ 5⟩

/-- C10: `SlicePoint::tag` with an empty literal and
`StringPoint::consume_literal("")` return a zero-width `Success` with an
empty matched value and the point unchanged, and an empty-string
identifier in `consume_identifier`'s list matches every input at its list
position (when no earlier literal matches). -/
theorem zero_width_tag_and_literal :
    (∀ (T : Type) (inst : DecidableEq T) (p : SlicePoint T),
      SlicePoint.tag [] p = some ⟨p, Status.Success []⟩) ∧
    (∀ p : StringPoint, p.consume_literal [] = some ⟨p, Status.Success []⟩) ∧
    (∀ (T : Type) (p : StringPoint) (pre : List (List Nat × T)) (v : T)
      (rest : List (List Nat × T)), (∀ q ∈ pre, ¬(q.1 <+: p.s)) →
      p.consume_identifier (pre ++ ([], v) :: rest) = some ⟨p, Status.Success v⟩) := by
  refine ⟨fun T _ p => ?_, fun p => ?_, fun T p pre v rest hpre => ?_⟩
  · simp [SlicePoint.tag, sliceGetTo, SlicePoint.success_opt, SlicePoint.success,
      Option.filter]
  · simp [StringPoint.consume_literal, List.nil_prefix, StringPoint.success,
      isCharBoundary_zero, Progress.success]
  · induction pre with
    | nil =>
      simp [StringPoint.consume_identifier, List.nil_prefix, StringPoint.consume_to,
        StringPoint.success, isCharBoundary_zero, Progress.success, Progress.map,
        Progress.map_err]
    | cons q pre ih =>
      have hq : ¬(q.1 <+: p.s) := hpre q (List.mem_cons_self q pre)
      have hrest : ∀ r ∈ pre, ¬(r.1 <+: p.s) := fun r hr => hpre r (List.mem_cons_of_mem q hr)
      obtain ⟨ql, qv⟩ := q
      simpa [StringPoint.consume_identifier, hq] using ih hrest

/-- Witness for C10 at concrete inputs: the empty identifier matches after
a non-matching earlier literal. -/
theorem zero_width_tag_and_literal_witness :
    StringPoint.consume_identifier ⟨[104, 105], 0⟩ [([120], 9), ([], 7)] =
      some ⟨⟨[104, 105], 0⟩, Status.Success 7⟩ :=
  zero_width_tag_and_literal.2.2 Nat ⟨[104, 105], 0⟩ [([120], 9)] 7 [] (by decide)


theorem utf8ChunksAux_head_not_cont (b : Nat) (t : List Nat)
    (h : utf8ChunksAux 0 (b :: t) = true) : isCont b = false := by
  by_cases hb : b < 0x80
  · simp [isCont]
    omega
  · by_cases hb2 : b < 0xC0
    · rw [utf8ChunksAux, if_neg hb, if_pos hb2] at h
      exact absurd h (by simp)
    · simp [isCont]
      omega

theorem utf8ChunksAux_inv_ascii (b : Nat) (t : List Nat)
    (h : utf8ChunksAux 0 (b :: t) = true) (hb : b < 0x80) :
    utf8ChunksAux 0 t = true := by
  rwa [utf8ChunksAux, if_pos hb] at h

theorem utf8ChunksAux_inv_two (b : Nat) (t : List Nat)
    (h : utf8ChunksAux 0 (b :: t) = true) (hb1 : 0xC0 ≤ b) (hb2 : b < 0xE0) :
    ∃ c1 t2, t = c1 :: t2 ∧ isCont c1 = true ∧ utf8ChunksAux 0 t2 = true := by
  rw [utf8ChunksAux, if_neg (by omega), if_neg (by omega), if_pos hb2] at h
  cases t with
  | nil => exact absurd h (by rw [utf8ChunksAux]; simp)
  | cons c1 t2 =>
    rw [utf8ChunksAux, Bool.and_eq_true] at h
    exact ⟨c1, t2, rfl, h.1, h.2⟩

theorem utf8ChunksAux_inv_three (b : Nat) (t : List Nat)
    (h : utf8ChunksAux 0 (b :: t) = true) (hb1 : 0xE0 ≤ b) (hb2 : b < 0xF0) :
    ∃ c1 c2 t3, t = c1 :: c2 :: t3 ∧ isCont c1 = true ∧ isCont c2 = true ∧
      utf8ChunksAux 0 t3 = true := by
  rw [utf8ChunksAux, if_neg (by omega), if_neg (by omega), if_neg (by omega),
    if_pos hb2] at h
  cases t with
  | nil => exact absurd h (by rw [utf8ChunksAux]; simp)
  | cons c1 t2 =>
    rw [utf8ChunksAux, Bool.and_eq_true] at h
    obtain ⟨h1, h2⟩ := h
    cases t2 with
    | nil => exact absurd h2 (by rw [utf8ChunksAux]; simp)
    | cons c2 t3 =>
      rw [utf8ChunksAux, Bool.and_eq_true] at h2
      exact ⟨c1, c2, t3, rfl, h1, h2.1, h2.2⟩

theorem utf8ChunksAux_inv_four (b : Nat) (t : List Nat)
    (h : utf8ChunksAux 0 (b :: t) = true) (hb1 : 0xF0 ≤ b) :
    ∃ c1 c2 c3 t4, t = c1 :: c2 :: c3 :: t4 ∧ isCont c1 = true ∧ isCont c2 = true ∧
      isCont c3 = true ∧ utf8ChunksAux 0 t4 = true := by
  rw [utf8ChunksAux, if_neg (by omega), if_neg (by omega), if_neg (by omega),
    if_neg (by omega)] at h
  cases t with
  | nil => exact absurd h (by rw [utf8ChunksAux]; simp)
  | cons c1 t2 =>
    rw [utf8ChunksAux, Bool.and_eq_true] at h
    obtain ⟨h1, h2⟩ := h
    cases t2 with
    | nil => exact absurd h2 (by rw [utf8ChunksAux]; simp)
    | cons c2 t3 =>
      rw [utf8ChunksAux, Bool.and_eq_true] at h2
      obtain ⟨h2a, h2b⟩ := h2
      cases t3 with
      | nil => exact absurd h2b (by rw [utf8ChunksAux]; simp)
      | cons c3 t4 =>
        rw [utf8ChunksAux, Bool.and_eq_true] at h2b
        exact ⟨c1, c2, c3, t4, rfl, h1, h2a, h2b.1, h2b.2⟩

theorem isCharBoundary_append (c t : List Nat) (i : Nat)
    (ht : utf8ChunksAux 0 t = true) (h : isCharBoundary t i = true) :
    isCharBoundary (c ++ t) (c.length + i) = true := by
  rcases (isCharBoundary_iff t i).1 h with h0 | hl | ⟨b, hb, hcont⟩
  · subst h0
    cases t with
    | nil =>
      apply (isCharBoundary_iff _ _).2
      right; left
      simp
    | cons b t1 =>
      apply (isCharBoundary_iff _ _).2
      right; right
      refine ⟨b, ?_, utf8ChunksAux_head_not_cont b t1 ht⟩
      rw [List.getElem?_append_right (by omega)]
      simp
  · subst hl
    apply (isCharBoundary_iff _ _).2
    right; left
    simp
  · apply (isCharBoundary_iff _ _).2
    right; right
    refine ⟨b, ?_, hcont⟩
    rw [List.getElem?_append_right (by omega)]
    simpa using hb

theorem utf8_prefix_boundary_bounded :
    ∀ (n : Nat) (v s : List Nat), v.length ≤ n →
      utf8ChunksAux 0 v = true → utf8ChunksAux 0 s = true → v <+: s →
      isCharBoundary s v.length = true := by
  intro n
  induction n with
  | zero =>
    intro v s hn hv hs hp
    have : v = [] := List.length_eq_zero.1 (by omega)
    subst this
    exact isCharBoundary_zero s
  | succ n ih =>
    intro v s hn hv hs hp
    match v with
    | [] => exact isCharBoundary_zero s
    | b :: v1 =>
      obtain ⟨c, hc⟩ : ∃ c, s = b :: c := by
        cases s with
        | nil => exact absurd (List.prefix_nil.1 hp) (by simp)
        | cons sb st =>
          obtain ⟨h1, -⟩ := List.cons_prefix_cons.1 hp
          exact ⟨st, by rw [h1]⟩
      subst hc
      have hp1 : v1 <+: c := (List.cons_prefix_cons.1 hp).2
      by_cases hb1 : b < 0x80
      · have hv1 := utf8ChunksAux_inv_ascii b v1 hv hb1
        have hs1 := utf8ChunksAux_inv_ascii b c hs hb1
        have hbd := ih v1 c (by simp at hn; omega) hv1 hs1 hp1
        have hsh := isCharBoundary_append [b] c v1.length hs1 hbd
        simpa [Nat.add_comm] using hsh
      · by_cases hb2 : b < 0xC0
        · rw [utf8ChunksAux, if_neg hb1, if_pos hb2] at hv
          exact absurd hv (by simp)
        · by_cases hb3 : b < 0xE0
          · obtain ⟨c1, v2, hveq, -, hv2⟩ :=
              utf8ChunksAux_inv_two b v1 hv (by omega) hb3
            obtain ⟨d1, s2, hseq, -, hs2⟩ :=
              utf8ChunksAux_inv_two b c hs (by omega) hb3
            subst hveq
            subst hseq
            have hp2 : v2 <+: s2 := (List.cons_prefix_cons.1 hp1).2
            have hbd := ih v2 s2 (by simp at hn; omega) hv2 hs2 hp2
            have hsh := isCharBoundary_append [b, d1] s2 v2.length hs2 hbd
            have hlen : (b :: c1 :: v2).length = [b, d1].length + v2.length := by
              simp
              omega
            rw [hlen]
            simpa using hsh
          · by_cases hb4 : b < 0xF0
            · obtain ⟨c1, c2, v2, hveq, -, -, hv2⟩ :=
                utf8ChunksAux_inv_three b v1 hv (by omega) hb4
              obtain ⟨d1, d2, s2, hseq, -, -, hs2⟩ :=
                utf8ChunksAux_inv_three b c hs (by omega) hb4
              subst hveq
              subst hseq
              have hp2 : v2 <+: s2 :=
                (List.cons_prefix_cons.1 (List.cons_prefix_cons.1 hp1).2).2
              have hbd := ih v2 s2 (by simp at hn; omega) hv2 hs2 hp2
              have hsh := isCharBoundary_append [b, d1, d2] s2 v2.length hs2 hbd
              have hlen : (b :: c1 :: c2 :: v2).length = [b, d1, d2].length + v2.length := by
                simp
                omega
              rw [hlen]
              simpa using hsh
            · obtain ⟨c1, c2, c3, v2, hveq, -, -, -, hv2⟩ :=
                utf8ChunksAux_inv_four b v1 hv (by omega)
              obtain ⟨d1, d2, d3, s2, hseq, -, -, -, hs2⟩ :=
                utf8ChunksAux_inv_four b c hs (by omega)
              subst hveq
              subst hseq
              have hp2 : v2 <+: s2 :=
                (List.cons_prefix_cons.1
                  (List.cons_prefix_cons.1 (List.cons_prefix_cons.1 hp1).2).2).2
              have hbd := ih v2 s2 (by simp at hn; omega) hv2 hs2 hp2
              have hsh := isCharBoundary_append [b, d1, d2, d3] s2 v2.length hs2 hbd
              have hlen :
                  (b :: c1 :: c2 :: c3 :: v2).length = [b, d1, d2, d3].length + v2.length := by
                simp
                omega
              rw [hlen]
              simpa using hsh

theorem utf8_prefix_boundary (v s : List Nat) (hv : utf8Chunks v = true)
    (hs : utf8Chunks s = true) (hp : v <+: s) : isCharBoundary s v.length = true :=
  utf8_prefix_boundary_bounded v.length v s le_rfl hv hs hp

theorem consume_literal_matches (p : StringPoint) (val : List Nat)
    (hs : utf8Chunks p.s = true) (hv : utf8Chunks val = true) (hp : val <+: p.s) :
    p.consume_literal val =
      some ⟨⟨p.s.drop val.length, p.offset + val.length⟩, Status.Success val⟩ := by
  have hb := utf8_prefix_boundary val p.s hv hs hp
  have htake : p.s.take val.length = val := (List.prefix_iff_eq_take.1 hp).symm
  simp [StringPoint.consume_literal, hp, StringPoint.success, hb, Progress.success, htake]

theorem consume_literal_misses (p : StringPoint) (val : List Nat)
    (h : ¬(val <+: p.s)) :
    p.consume_literal val = some ⟨p, Status.Failure ()⟩ := by
  simp [StringPoint.consume_literal, h, StringPoint.fail, Progress.failure]

theorem tag_matches {T : Type} [DecidableEq T] (t : List T) (p : SlicePoint T)
    (hp : t <+: p.s) :
    SlicePoint.tag t p =
      some ⟨⟨p.offset + t.length, p.s.drop t.length⟩, Status.Success t⟩ := by
  have hlen : t.length ≤ p.s.length := hp.length_le
  have htake : p.s.take t.length = t := (List.prefix_iff_eq_take.1 hp).symm
  simp [SlicePoint.tag, sliceGetTo, hlen, Option.filter, htake, SlicePoint.success_opt,
    SlicePoint.success]

theorem tag_misses {T : Type} [DecidableEq T] (t : List T) (p : SlicePoint T)
    (h : ¬(t <+: p.s)) :
    SlicePoint.tag t p = some ⟨p, Status.Failure ()⟩ := by
  by_cases hlen : t.length ≤ p.s.length
  · have hne : p.s.take t.length ≠ t := fun he => h (he ▸ List.take_prefix t.length p.s)
    simp [SlicePoint.tag, sliceGetTo, hlen, Option.filter, hne, SlicePoint.success_opt,
      SlicePoint.fail]
  · simp [SlicePoint.tag, sliceGetTo, hlen, Option.filter, SlicePoint.success_opt,
      SlicePoint.fail]

/-- C5: `SlicePoint::tag(t)` and `StringPoint::consume_literal(t)` succeed
iff the remaining input starts with exactly the literal sequence
(elementwise equality), consuming exactly the literal's length and
returning the matched prefix; otherwise they fail with the point unmoved.
For the string version the inputs are constrained to the UTF-8 shape every
Rust `&str` has. -/
theorem tag_and_consume_literal_prefix_contract :
    (∀ (T : Type) [DecidableEq T] (p : SlicePoint T) (t : List T),
      (t <+: p.s →
        SlicePoint.tag t p =
          some ⟨⟨p.offset + t.length, p.s.drop t.length⟩, Status.Success t⟩) ∧
      (¬(t <+: p.s) → SlicePoint.tag t p = some ⟨p, Status.Failure ()⟩)) ∧
    (∀ (p : StringPoint) (t : List Nat), utf8Chunks p.s = true → utf8Chunks t = true →
      (t <+: p.s →
        p.consume_literal t =
          some ⟨⟨p.s.drop t.length, p.offset + t.length⟩, Status.Success t⟩) ∧
      (¬(t <+: p.s) → p.consume_literal t = some ⟨p, Status.Failure ()⟩)) :=
  ⟨fun T _ p t =>
    ⟨fun hp => tag_matches t p hp, fun hp => tag_misses t p hp⟩,
   fun p t hs ht =>
    ⟨fun hp => consume_literal_matches p t hs ht hp,
     fun hp => consume_literal_misses p t hp⟩⟩

/-- Witness for C5 at concrete inputs: `tag [1, 2]` on `[1, 2, 3]`
matches; `consume_literal "he"` on `"hello"` matches; a non-prefix literal
fails in place. -/
theorem tag_and_consume_literal_prefix_contract_witness :
    (SlicePoint.tag [1, 2] (⟨0, [1, 2, 3]⟩ : SlicePoint Nat) =
      some ⟨⟨2, [3]⟩, Status.Success [1, 2]⟩) ∧
    (StringPoint.consume_literal ⟨[104, 101, 108, 108, 111], 0⟩ [104, 101] =
      some ⟨⟨[108, 108, 111], 2⟩, Status.Success [104, 101]⟩) ∧
    (StringPoint.consume_literal ⟨[104], 0⟩ [120] =
      some ⟨⟨[104], 0⟩, Status.Failure ()⟩) :=
  ⟨(tag_and_consume_literal_prefix_contract.1 Nat ⟨0, [1, 2, 3]⟩ [1, 2]).1 (by decide),
   (tag_and_consume_literal_prefix_contract.2 ⟨[104, 101, 108, 108, 111], 0⟩ [104, 101]
      (by decide) (by decide)).1 (by decide),
   (tag_and_consume_literal_prefix_contract.2 ⟨[104], 0⟩ [120]
      (by decide) (by decide)).2 (by decide)⟩

theorem consume_identifier_first_match {T : Type} (p : StringPoint)
    (pre : List (List Nat × T)) (lit : List Nat) (v : T) (rest : List (List Nat × T))
    (hs : utf8Chunks p.s = true) (hlit : utf8Chunks lit = true)
    (hpre : ∀ q ∈ pre, ¬(q.1 <+: p.s)) (hp : lit <+: p.s) :
    p.consume_identifier (pre ++ (lit, v) :: rest) =
      some ⟨⟨p.s.drop lit.length, p.offset + lit.length⟩, Status.Success v⟩ := by
  induction pre with
  | nil =>
    have hb := utf8_prefix_boundary lit p.s hlit hs hp
    simp [StringPoint.consume_identifier, hp, StringPoint.consume_to, StringPoint.success,
      hb, Progress.success, Progress.map, Progress.map_err]
  | cons q pre ih =>
    obtain ⟨ql, qv⟩ := q
    have hq : ¬(ql <+: p.s) := hpre (ql, qv) (List.mem_cons_self _ _)
    have hrest : ∀ r ∈ pre, ¬(r.1 <+: p.s) := fun r hr => hpre r (List.mem_cons_of_mem _ hr)
    simpa [StringPoint.consume_identifier, hq] using ih hrest

theorem consume_identifier_no_match {T : Type} (p : StringPoint)
    (ids : List (List Nat × T)) (h : ∀ q ∈ ids, ¬(q.1 <+: p.s)) :
    p.consume_identifier ids = some ⟨p, Status.Failure ()⟩ := by
  induction ids with
  | nil => simp [StringPoint.consume_identifier, StringPoint.fail, Progress.failure]
  | cons q ids ih =>
    obtain ⟨ql, qv⟩ := q
    have hq : ¬(ql <+: p.s) := h (ql, qv) (List.mem_cons_self _ _)
    have hrest : ∀ r ∈ ids, ¬(r.1 <+: p.s) := fun r hr => h r (List.mem_cons_of_mem _ hr)
    simpa [StringPoint.consume_identifier, hq] using ih hrest

/-- C6: `consume_identifier` returns the associated value of the first
pair (in list order) whose literal is a prefix of the remaining input,
advancing by exactly that literal's length (first-match-wins); if no
literal matches it fails with the point unchanged. Concretely, on
`"hello world"` with `[("goodbye", 1), ("hello", 2)]` it succeeds with
value 2 at offset 5 and remaining input `" world"`; with
`[("red", 3), ("blue", 4)]` it fails at offset 0 with the input
unchanged. -/
theorem consume_identifier_first_match_wins :
    (∀ (T : Type) (p : StringPoint) (pre : List (List Nat × T)) (lit : List Nat) (v : T)
      (rest : List (List Nat × T)),
      utf8Chunks p.s = true → utf8Chunks lit = true →
      (∀ q ∈ pre, ¬(q.1 <+: p.s)) → lit <+: p.s →
      p.consume_identifier (pre ++ (lit, v) :: rest) =
        some ⟨⟨p.s.drop lit.length, p.offset + lit.length⟩, Status.Success v⟩) ∧
    (∀ (T : Type) (p : StringPoint) (ids : List (List Nat × T)),
      (∀ q ∈ ids, ¬(q.1 <+: p.s)) →
      p.consume_identifier ids = some ⟨p, Status.Failure ()⟩) ∧
    (StringPoint.consume_identifier
        (StringPoint.new [104, 101, 108, 108, 111, 32, 119, 111, 114, 108, 100])
        [([103, 111, 111, 100, 98, 121, 101], 1), ([104, 101, 108, 108, 111], 2)] =
      some ⟨⟨[32, 119, 111, 114, 108, 100], 5⟩, Status.Success 2⟩) ∧
    (StringPoint.consume_identifier
        (StringPoint.new [104, 101, 108, 108, 111, 32, 119, 111, 114, 108, 100])
        [([114, 101, 100], 3), ([98, 108, 117, 101], 4)] =
      some ⟨⟨[104, 101, 108, 108, 111, 32, 119, 111, 114, 108, 100], 0⟩,
        Status.Failure ()⟩) :=
  ⟨fun T p pre lit v rest hs hlit hpre hp =>
    consume_identifier_first_match p pre lit v rest hs hlit hpre hp,
   fun T p ids h => consume_identifier_no_match p ids h,
   by decide, by decide⟩

/-- Witness for C6 at a concrete input: on `"hello world"`, a
non-matching earlier literal is skipped and `"hello"` matches with value
2. -/
theorem consume_identifier_first_match_wins_witness :
    StringPoint.consume_identifier ⟨[104, 101, 108, 108, 111, 32], 0⟩
        [([120], 9), ([104, 101, 108, 108, 111], 2)] =
      some ⟨⟨[32], 5⟩, Status.Success 2⟩ :=
  consume_identifier_first_match_wins.1 Nat ⟨[104, 101, 108, 108, 111, 32], 0⟩
    [([120], 9)] [104, 101, 108, 108, 111] 2 []
    (by decide) (by decide) (by decide) (by decide)

/-- C1: repetition (`zero_or_more`, modelled from the spec since the
driver is not among the provided sources) with a parser for literal
`"a"` on input `"aaa"` returns `Success` with the ordered sequence
`["a", "a", "a"]` and a point at offset 3; on `""` or on any input not
starting with `"a"` (the literal parser failing recoverably) it returns
`Success` with an empty sequence and the original point unchanged — zero
iterations is never a failure when the terminating failure is
recoverable. -/
theorem zero_or_more_literal_a :
    (zero_or_more (fun _ => true) 4 (fun q : StringPoint => q.consume_literal [97])
        (StringPoint.new [97, 97, 97]) =
      some ⟨⟨[], 3⟩, Status.Success [[97], [97], [97]]⟩) ∧
    (zero_or_more (fun _ => true) 1 (fun q : StringPoint => q.consume_literal [97])
        (StringPoint.new []) =
      some ⟨⟨[], 0⟩, Status.Success []⟩) ∧
    (∀ (p : StringPoint) (fuel : Nat), ¬([97] <+: p.s) → 0 < fuel →
      zero_or_more (fun _ => true) fuel (fun q : StringPoint => q.consume_literal [97]) p =
        some ⟨p, Status.Success []⟩) := by
  refine ⟨by decide, by decide, fun p fuel hnp hf => ?_⟩
  match fuel, hf with
  | fuel + 1, _ =>
    rw [zero_or_more]
    simp [consume_literal_misses p [97] hnp]

/-- Witness for C1 at a concrete input: on `"b"` the repetition ends
immediately with an empty sequence and the point unchanged. -/
theorem zero_or_more_literal_a_witness :
    zero_or_more (fun _ => true) 1 (fun q : StringPoint => q.consume_literal [97]) ⟨[98], 0⟩ =
      some ⟨⟨[98], 0⟩, Status.Success []⟩ :=
  zero_or_more_literal_a.2.2 ⟨[98], 0⟩ 1 (by decide) (by decide)
